import Mathlib

/-!
Verification of the job-scraper repository (career-page discovery,
job-listing extraction, normalization/filter/dedup pipeline, pagination,
and orchestration).  The definitions below are a shallow embedding of
`career_site_discoverer.py`, `job_listing_scraper.py` and
`orchestrator.py`; Python standard-library string and URL operations are
modelled on `List Char` so that everything is executable and
kernel-reducible.
-/

namespace JobScraper

/-! ## Python string primitives, modelled on `List Char` -/

/-- Does the first list start with the second (`str.startswith` on a full
pattern placed at the head)? -/
def listStartsWith : List Char → List Char → Bool
  | _, [] => true
  | [], _ :: _ => false
  | x :: xs, y :: ys => x == y && listStartsWith xs ys

/-- Contiguous-substring test: models Python `pat in s` (second argument
is the pattern). -/
def listHasSub : List Char → List Char → Bool
  | [], pat => pat.isEmpty
  | x :: xs, pat => listStartsWith (x :: xs) pat || listHasSub xs pat

/-- Python `pat in s` for strings. -/
def pyIn (pat s : String) : Bool := listHasSub s.toList pat.toList

/-- Python `s.startswith(pat)` for strings. -/
def pyStartsWith (s pat : String) : Bool := listStartsWith s.toList pat.toList

/-- Python `s.lower()` (ASCII case folding, as in all inputs of this
program). -/
def strLower (s : String) : String := String.mk (s.toList.map Char.toLower)

/-- Characters treated as whitespace by Python `str.split()` /
`str.strip()` with no argument. -/
def wsChars : List Char := [' ', '\t', '\n', '\r', '\x0b', '\x0c']

/-- Drop the leading characters contained in `cs` (one side of
`str.strip(chars)`). -/
def stripLeft (cs : List Char) (l : List Char) : List Char :=
  l.dropWhile (fun c => cs.contains c)

/-- Python `s.strip(chars)`: remove the characters of `cs` from both
ends. -/
def pyStripChars (cs : List Char) (l : List Char) : List Char :=
  (stripLeft cs ((stripLeft cs l).reverse)).reverse

/-- Python `s.strip()` on whitespace, for strings. -/
def pyStripWs (s : String) : String := String.mk (pyStripChars wsChars s.toList)

/-- Worker for Python `str.split()` (split on whitespace runs, dropping
empty pieces); the first argument accumulates the current word reversed. -/
def splitWsAux : List Char → List Char → List (List Char)
  | acc, [] => if acc.isEmpty then [] else [acc.reverse]
  | acc, c :: rest =>
    if wsChars.contains c then
      if acc.isEmpty then splitWsAux [] rest
      else acc.reverse :: splitWsAux [] rest
    else splitWsAux (c :: acc) rest

/-- Python `s.split()` for strings. -/
def pySplitWs (s : String) : List String := (splitWsAux [] s.toList).map String.mk

/-- Python `s.split(sep)` for a one-character separator: keeps empty
pieces, always returns at least one piece. -/
def splitCharL (sep : Char) : List Char → List (List Char)
  | [] => [[]]
  | c :: rest =>
    if c == sep then [] :: splitCharL sep rest
    else
      match splitCharL sep rest with
      | [] => [[c]]
      | g :: gs => (c :: g) :: gs

/-- Join pieces with a separator list (Python `sep.join`). -/
def joinWith (sep : List Char) : List (List Char) → List Char
  | [] => []
  | [x] => x
  | x :: y :: rest => x ++ sep ++ joinWith sep (y :: rest)

/-- Fuel-driven worker for Python `s.replace(pat, repl)`: replaces each
non-overlapping occurrence left to right. -/
def pyReplaceFuel (pat repl : List Char) : Nat → List Char → List Char
  | 0, l => l
  | _ + 1, [] => []
  | fuel + 1, c :: rest =>
    if !pat.isEmpty && listStartsWith (c :: rest) pat then
      repl ++ pyReplaceFuel pat repl fuel (List.drop (pat.length - 1) rest)
    else
      c :: pyReplaceFuel pat repl fuel rest

/-- Python `s.replace(pat, repl)` for strings (nonempty pattern). -/
def pyReplace (s pat repl : String) : String :=
  String.mk (pyReplaceFuel pat.toList repl.toList s.toList.length s.toList)

/-- Split a list at the first occurrence of `sep`, if any. -/
def splitFirst (sep : Char) : List Char → Option (List Char × List Char)
  | [] => none
  | x :: xs =>
    if x == sep then some ([], xs)
    else
      match splitFirst sep xs with
      | some (pre, post) => some (x :: pre, post)
      | none => none

/-! ## URL model (`urllib.parse`: `urlparse`, `urljoin`)

`career_site_discoverer.py` and `job_listing_scraper.py` use
`urlparse`/`urljoin` from the standard library; the model below follows
their observable behaviour on the URLs this program handles. -/

/-- The components produced by `urllib.parse.urlparse`. -/
structure ParsedUrl where
  scheme : String
  netloc : String
  path : String
  query : String
  fragment : String
deriving DecidableEq

/-- Characters allowed in a URL scheme. -/
def isSchemeChar (c : Char) : Bool :=
  c.isAlpha || c.isDigit || c == '+' || c == '-' || c == '.'

/-- `urllib.parse.urlparse` on a character list: split off a scheme
(lowercased) when the text before the first ':' is a valid scheme, then a
`//`-introduced network location ending at '/', '?' or '#', then the
fragment after '#', then the query after '?'. -/
def urlparseL (l : List Char) : ParsedUrl :=
  let sp :=
    match splitFirst ':' l with
    | some (pre, post) =>
      match pre with
      | [] => ([], l)
      | c0 :: _ => if c0.isAlpha && pre.all isSchemeChar then (pre.map Char.toLower, post) else ([], l)
    | none => ([], l)
  let scheme := sp.1
  let rest := sp.2
  let np :=
    if listStartsWith rest ['/', '/'] then
      let after := rest.drop 2
      (after.takeWhile (fun c => c != '/' && c != '?' && c != '#'),
       after.dropWhile (fun c => c != '/' && c != '?' && c != '#'))
    else ([], rest)
  let netloc := np.1
  let fp :=
    match splitFirst '#' np.2 with
    | some (a, b) => (a, b)
    | none => (np.2, [])
  let qp :=
    match splitFirst '?' fp.1 with
    | some (a, b) => (a, b)
    | none => (fp.1, [])
  ⟨String.mk scheme, String.mk netloc, String.mk qp.1, String.mk qp.2, String.mk fp.2⟩

/-- `urlparse` on strings. -/
def urlparseStr (s : String) : ParsedUrl := urlparseL s.toList

/-- `is_valid_url` from `career_site_discoverer.py`: the string parses
with both a scheme and an authority (netloc) component. -/
def isValidUrl (url : String) : Bool :=
  (urlparseStr url).scheme != "" && (urlparseStr url).netloc != ""

/-- `get_base_domain` from `career_site_discoverer.py`: the netloc with a
leading `www.` removed. -/
def getBaseDomain (url : String) : String :=
  let netloc := (urlparseStr url).netloc
  if pyStartsWith netloc "www." then String.mk (netloc.toList.drop 4) else netloc

/-- Reassemble URL components (`urllib.parse.urlunsplit`). -/
def urlunparse (scheme netloc path query frag : String) : String :=
  (if scheme != "" then scheme ++ ":" else "")
  ++ (if netloc != "" then "//" ++ netloc else "")
  ++ path
  ++ (if query != "" then "?" ++ query else "")
  ++ (if frag != "" then "#" ++ frag else "")

/-- Keep the characters of a path up to and including its last '/'. -/
def dirOfPath (l : List Char) : List Char :=
  (l.reverse.dropWhile (fun c => c != '/')).reverse

/-- Merge a relative path against a base path (RFC 3986 merge as
performed by `urljoin`; the hrefs this program resolves contain no
dot-segments). -/
def mergePaths (bpath upath : String) : String :=
  if bpath == "" then "/" ++ upath
  else String.mk (dirOfPath bpath.toList) ++ upath

/-- `urllib.parse.urljoin`: an href with its own scheme (and authority)
is returned unchanged; a `//`-href takes the base scheme; an absolute
path replaces the base path; a relative path is merged against the base
path's directory. -/
def urljoin (base url : String) : String :=
  if base == "" then url
  else if url == "" then base
  else
    let b := urlparseStr base
    let u := urlparseStr url
    if u.scheme != "" && (u.scheme != b.scheme || u.netloc != "") then url
    else if u.netloc != "" then urlunparse b.scheme u.netloc u.path u.query u.fragment
    else if u.path == "" && u.query == "" then urlunparse b.scheme b.netloc b.path b.query u.fragment
    else if u.path == "" then urlunparse b.scheme b.netloc b.path u.query u.fragment
    else if pyStartsWith u.path "/" then urlunparse b.scheme b.netloc u.path u.query u.fragment
    else urlunparse b.scheme b.netloc (mergePaths b.path u.path) u.query u.fragment

/-! ## Career page discoverer (`career_site_discoverer.py`,
`find_career_page_url`)

The search engine is abstracted as an oracle `results : String → List
String` returning, for a query string, the hrefs of the parsed result
links in page order (missing `href` attributes appear as `""`, matching
the falsy check in the source). -/

/-- The five search queries built for a company name, in source order. -/
def searchQueries (name : String) : List String :=
  [name ++ " careers", name ++ " jobs", name ++ " job openings",
   name ++ " recruiting", name ++ " career opportunities"]

/-- The slug guessed from a company name: lowercased, spaces removed. -/
def companySlug (name : String) : String := pyReplace (strLower name) " " ""

/-- The guessed likely domains `slug.com`, `slug.org`, `slug.net`. -/
def likelyDomains (name : String) : List String :=
  [companySlug name ++ ".com", companySlug name ++ ".org", companySlug name ++ ".net"]

/-- The domain-likelihood test of `find_career_page_url`: a guessed
slug-domain occurs in the base domain, or the slug occurs in the base
domain or in the lowercased full URL. -/
def isLikelyCompanyDomain (name href hrefLower : String) : Bool :=
  let base := getBaseDomain href
  (likelyDomains name).any (fun d => pyIn d base)
    || pyIn (companySlug name) base
    || pyIn (companySlug name) hrefLower

/-- The inner link loop of `find_career_page_url` over one query's result
links: skip empty or invalid hrefs; when the lowercased href contains one
of `careers`, `jobs`, `employment`, `hiring`, return it if it passes the
domain-likelihood test; otherwise continue. -/
def searchLinks (name : String) : List String → Option String
  | [] => none
  | href :: rest =>
    if href == "" || !isValidUrl href then searchLinks name rest
    else
      let hrefLower := strLower href
      if pyIn "careers" hrefLower || pyIn "jobs" hrefLower
          || pyIn "employment" hrefLower || pyIn "hiring" hrefLower then
        if isLikelyCompanyDomain name href hrefLower then some href
        else searchLinks name rest
      else searchLinks name rest

/-- The outer query loop of `find_career_page_url`: first hit wins. -/
def searchAllQueries (name : String) (results : String → List String) :
    List String → Option String
  | [] => none
  | q :: qs =>
    match searchLinks name (results q) with
    | some href => some href
    | none => searchAllQueries name results qs

/-- `find_career_page_url`: a provided, truthy and syntactically valid
direct URL is returned immediately; otherwise the five queries are
searched in order. -/
def findCareerPageUrl (name : String) (directUrl : Option String)
    (results : String → List String) : Option String :=
  match directUrl with
  | some u =>
    if (u != "") && isValidUrl u then some u
    else searchAllQueries name results (searchQueries name)
  | none => searchAllQueries name results (searchQueries name)

/-- Acceptance test for a single search-result link, as the source
applies it: nonempty, syntactically valid, lowercased URL contains a
career token, and the domain-likelihood test passes. -/
def acceptLink (name href : String) : Bool :=
  (href != "") && isValidUrl href
    && (pyIn "careers" (strLower href) || pyIn "jobs" (strLower href)
        || pyIn "employment" (strLower href) || pyIn "hiring" (strLower href))
    && isLikelyCompanyDomain name href (strLower href)

/-- Concatenate a list of lists (used to state the first-match policy
across queries). -/
def flattenL {α : Type} : List (List α) → List α
  | [] => []
  | x :: xs => x ++ flattenL xs

/-- The claim C1's own acceptance wording (from the spec, for comparison
with the source behaviour): the token must occur in the *path or query
string* of the link. -/
def specPathOrQueryHasToken (href : String) : Bool :=
  let p := urlparseStr href
  ["careers", "jobs", "employment", "hiring"].any
    (fun t => pyIn t (strLower p.path) || pyIn t (strLower p.query))

/-! ## Normalization & filter/dedup pipeline (`job_listing_scraper.py`,
`scrape_company_jobs`) -/

/-- The job-role keyword allow-list (`job_keywords`). -/
def jobKeywords : List String :=
  ["engineer", "developer", "manager", "analyst", "designer",
   "specialist", "director", "lead", "architect", "associate",
   "intern", "principal", "consultant", "recruiter", "sales",
   "marketing", "product", "data scientist", "researcher",
   "software", "hardware", "ux", "ui", "operations", "finance",
   "hr", "support", "account", "expert", "senior", "junior",
   "staff", "staffing", "technician", "business", "legal", "counsel"]

/-- The navigational/non-job keyword deny-list (`excluded_keywords`). -/
def excludedKeywords : List String :=
  ["cookie", "privacy", "help", "careers", "about", "blog",
   "login", "sign", "policy", "terms", "faq", "jobsjobs",
   "person_outline", "work_outline", "search", "results",
   "dashboard", "preferences", "categories", "alerts",
   "eec", "eeo", "how we hire", "know your rights", "equal opportunity",
   "contact"]

/-- The boilerplate substrings removed from titles by the `re.sub` call,
in alternation order. -/
def boilerPatterns : List (List Char) :=
  ["work_outlineJobs", "person_outline", "JobsJobs", "helpHelpopen_in_new",
   "open_in_new"].map String.toList

/-- Case-insensitive match of a pattern at the head of a list. -/
def startsWithCI (l pat : List Char) : Bool :=
  listStartsWith (l.map Char.toLower) (pat.map Char.toLower)

/-- First boilerplate pattern matching at the head, if any. -/
def matchBoiler (l : List Char) : Option (List Char) :=
  (boilerPatterns.filter (fun p => startsWithCI l p)).head?

/-- Fuel-driven scan deleting every case-insensitive occurrence of a
boilerplate pattern, leftmost first (the `re.sub(..., '', title,
flags=re.IGNORECASE)` call). -/
def stripBoilerFuel : Nat → List Char → List Char
  | 0, l => l
  | _ + 1, [] => []
  | fuel + 1, c :: rest =>
    match matchBoiler (c :: rest) with
    | some p => stripBoilerFuel fuel (List.drop (p.length - 1) rest)
    | none => c :: stripBoilerFuel fuel rest

/-- Title cleanup of `scrape_company_jobs` (also duplicated verbatim on
the generic Playwright path): strip boilerplate and whitespace; drop the
first of the first two whitespace tokens when equal case-insensitively;
strip leading/trailing ':', '-', ' '; replace doubled spaces. -/
def cleanTitle (title : String) : String :=
  let t0 := pyStripWs (String.mk (stripBoilerFuel title.toList.length title.toList))
  let parts := pySplitWs t0
  let t1 :=
    match parts with
    | p0 :: p1 :: rest =>
      if strLower p0 == strLower p1 then
        String.mk (joinWith [' '] ((p1 :: rest).map String.toList))
      else t0
    | _ => t0
  pyReplace (String.mk (pyStripChars [':', '-', ' '] t1.toList)) "  " " "

/-- URL resolution applied to every scraped href: join against the page
URL unless the href already starts with `http`. -/
def resolveHref (companyUrl href : String) : String :=
  if pyStartsWith href "http" then href else urljoin companyUrl href

/-- The run-wide dedup key `f"{title}-{href}"` computed from a raw
candidate after title cleanup and URL resolution. -/
def jobId (companyUrl : String) (title href : String) : String :=
  cleanTitle title ++ "-" ++ resolveHref companyUrl href

/-- Allow-list test: the lowercased title contains some job keyword. -/
def titleAllowed (title : String) : Bool :=
  jobKeywords.any (fun k => pyIn k (strLower title))

/-- Deny-list test: the lowercased title contains some excluded
keyword. -/
def titleDenied (title : String) : Bool :=
  excludedKeywords.any (fun k => pyIn k (strLower title))

/-- Number of slash-delimited segments of `href.strip('/').split('/')`. -/
def segCount (href : String) : Nat :=
  (splitCharL '/' (pyStripChars ['/'] href.toList)).length

/-- Structural plausibility drop condition on the static path: fewer
than 4 segments and none of the job-indicating tokens occur in the
href. -/
def structDropStatic (href : String) : Bool :=
  decide (segCount href < 4)
    && !(["job", "career", "opening", "position", "viewjob"].any
          (fun k => pyIn k href))

/-- A raw scraped candidate on the static path (`get_text`, `href`). -/
structure RawCandidate where
  title : String
  href : String
deriving DecidableEq

/-- A normalized listing as appended to the result list. -/
structure Listing where
  title : String
  url : String
deriving DecidableEq

/-- The mutable state threaded through one extraction pass: the run-wide
`global_found_listings_ids`, the per-page `current_processed_urls`, and
the output listings. -/
structure SState where
  g : List String
  cur : List String
  out : List Listing
deriving DecidableEq

/-- One iteration of the candidate loop of `scrape_company_jobs`:
falsy-field skip, title cleanup, URL resolution, run-wide and per-page
dedup, allow-list, deny-list and structural tests, then append. -/
def stepStatic (u : String) (st : SState) (c : RawCandidate) : SState :=
  if c.title == "" || c.href == "" then st
  else if jobId u c.title c.href ∈ st.g ∨ resolveHref u c.href ∈ st.cur then st
  else if !(titleAllowed (cleanTitle c.title)) then st
  else if titleDenied (cleanTitle c.title) then st
  else if structDropStatic (resolveHref u c.href) then st
  else
    ⟨jobId u c.title c.href :: st.g, resolveHref u c.href :: st.cur,
     st.out ++ [⟨cleanTitle c.title, resolveHref u c.href⟩]⟩

/-- One extraction pass of `scrape_company_jobs` over its candidate
elements, starting from a run-wide id set `g0` and a fresh per-page URL
set. -/
def staticRun (u : String) (cands : List RawCandidate) (g0 : List String) : SState :=
  cands.foldl (stepStatic u) ⟨g0, [], []⟩

/-! ## Generic dynamic extraction path
(`scrape_company_jobs_with_playwright`, generic branch) -/

/-- A raw candidate on the generic Playwright path: extracted text plus
an optional href (absent for title-only elements). -/
structure PwCandidate where
  title : String
  link : Option String
deriving DecidableEq

/-- A listing produced on the generic Playwright path; the url may be
absent for title-only candidates. -/
structure PwListing where
  title : String
  url : Option String
deriving DecidableEq

/-- State for the generic Playwright pass. -/
structure PwState where
  g : List String
  cur : List String
  out : List PwListing
deriving DecidableEq

/-- Python truthiness of a link value (`None` and `""` are falsy). -/
def linkTruthy : Option String → Bool
  | none => false
  | some l => l != ""

/-- Link resolution on the Playwright paths: `if link and not
link.startswith('http'): link = urljoin(company_url, link)`. -/
def pwResolve (u : String) : Option String → Option String
  | none => none
  | some l =>
    if (l != "") && !(pyStartsWith l "http") then some (urljoin u l) else some l

/-- `job_id = f"{title}-{link}" if link else title` on the Playwright
paths. -/
def pwKey (title : String) : Option String → String
  | none => title
  | some l => if l != "" then title ++ "-" ++ l else title

/-- Structural drop condition on the Playwright paths (the token list
additionally contains `listing`). -/
def structDropPw (href : String) : Bool :=
  decide (segCount href < 4)
    && !(["job", "career", "opening", "position", "viewjob", "listing"].any
          (fun k => pyIn k href))

/-- One iteration of the generic Playwright candidate loop (lines
402-430 of `job_listing_scraper.py`): skip falsy titles, clean the
title, resolve a truthy link, dedup on the run-wide key and the per-page
URLs, apply allow/deny lists, then either the linked structural test or
the title-only three-token rule, then append. -/
def stepPw (u : String) (st : PwState) (c : PwCandidate) : PwState :=
  if c.title == "" then st
  else if pwKey (cleanTitle c.title) (pwResolve u c.link) ∈ st.g
      ∨ (linkTruthy (pwResolve u c.link) = true
          ∧ (pwResolve u c.link).getD "" ∈ st.cur) then st
  else if !(titleAllowed (cleanTitle c.title)) then st
  else if titleDenied (cleanTitle c.title) then st
  else if linkTruthy (pwResolve u c.link)
      && structDropPw ((pwResolve u c.link).getD "") then st
  else if !(linkTruthy (pwResolve u c.link))
      && decide ((pySplitWs (cleanTitle c.title)).length < 3) then st
  else
    ⟨pwKey (cleanTitle c.title) (pwResolve u c.link) :: st.g,
     if linkTruthy (pwResolve u c.link) then (pwResolve u c.link).getD "" :: st.cur
     else st.cur,
     st.out ++ [⟨cleanTitle c.title, pwResolve u c.link⟩]⟩

/-- One generic Playwright extraction pass. -/
def pwRun (u : String) (cands : List PwCandidate) (g0 : List String) : PwState :=
  cands.foldl (stepPw u) ⟨g0, [], []⟩

/-! ## ServiceNow-specific extraction path
(`scrape_company_jobs_with_playwright`, `company_name == "ServiceNow"`) -/

/-- A raw ServiceNow candidate: title text and href, `""` when the inner
selector found nothing (the source stores `None`, checked by falsiness). -/
structure SNCandidate where
  title : String
  link : String
deriving DecidableEq

/-- One iteration of the ServiceNow candidate loop (lines 318-355):
skip falsy titles or links, resolve the link, dedup on the run-wide key
and per-page URLs, then append — the allow-list, deny-list and
structural tests are commented out in the source on this path. -/
def stepSN (u : String) (st : SState) (c : SNCandidate) : SState :=
  if c.title == "" || c.link == "" then st
  else if pwKey c.title (pwResolve u (some c.link)) ∈ st.g
      ∨ (linkTruthy (pwResolve u (some c.link)) = true
          ∧ ((pwResolve u (some c.link)).getD "") ∈ st.cur) then st
  else
    ⟨pwKey c.title (pwResolve u (some c.link)) :: st.g,
     if linkTruthy (pwResolve u (some c.link)) then
       ((pwResolve u (some c.link)).getD "") :: st.cur
     else st.cur,
     st.out ++ [⟨c.title, (pwResolve u (some c.link)).getD ""⟩]⟩

/-- One ServiceNow extraction pass. -/
def snRun (u : String) (cands : List SNCandidate) (g0 : List String) : SState :=
  cands.foldl (stepSN u) ⟨g0, [], []⟩

/-! ## Pagination controller (Google branch of
`scrape_company_jobs_with_playwright`)

The page feed is abstracted as an environment mapping the 1-based page
number to the job items found on that page and the state of the "next"
control (`false` covers absent, disabled, and activation errors, all of
which `break` in the source). -/

/-- What the controller observes on one page. -/
structure GooglePage where
  jobItems : List PwCandidate
  nextEnabled : Bool

/-- The `while page_count < max_pages` loop: increment the counter,
stop when a non-initial page has no job items, extract, then advance if
the next control is enabled, else stop.  Returns the final
`page_count`.  The fuel is `max_pages - page_count`, so the loop
condition is exactly `fuel > 0`. -/
def googlePaginate (env : Nat → GooglePage) : Nat → Nat → Nat
  | 0, count => count
  | fuel + 1, count =>
    if (env (count + 1)).jobItems.isEmpty && decide (count + 1 > 1) then count + 1
    else if (env (count + 1)).nextEnabled then googlePaginate env fuel (count + 1)
    else count + 1

/-- Number of pages visited by the Google pagination loop with the
source's safety cap `max_pages = 45`. -/
def googlePageCount (env : Nat → GooglePage) : Nat := googlePaginate env 45 0

/-- An environment whose pages always carry one job item and whose next
control is always enabled. -/
def fullPagesEnv : Nat → GooglePage :=
  fun _ => ⟨[⟨"Software Engineer", some "https://g.co/about/careers/jobs/1"⟩], true⟩

/-- An environment whose pages are always empty while the next control
stays enabled. -/
def emptyPagesEnv : Nat → GooglePage := fun _ => ⟨[], true⟩

/-! ## Orchestration (`orchestrator.py`, `run_orchestration`)

Discovery is abstracted as an oracle: per company it either returns the
discoverer's value or raises an exception with a message. -/

/-- A company row from the roster (name, optional direct URL). -/
structure CompanyEntry where
  name : String
  directUrl : Option String
deriving DecidableEq

/-- Outcome of calling the discoverer for one company. -/
inductive DOutcome where
  | ok : Option String → DOutcome
  | exn : String → DOutcome
deriving DecidableEq

/-- One result entry of `run_orchestration`. -/
structure PageResult where
  companyName : String
  careerPageUrl : Option String
  status : String
deriving DecidableEq

/-- The per-company body of the orchestration loop: skip falsy names;
a truthy discovered URL gives `SUCCESS`, a falsy one `FAILED_DISCOVERY`,
and an exception is caught and recorded as `ERROR_DISCOVERY: <msg>`. -/
def orchResult (c : CompanyEntry) (outcome : DOutcome) : PageResult :=
  match outcome with
  | .ok (some u) =>
    if u != "" then ⟨c.name, some u, "SUCCESS"⟩
    else ⟨c.name, none, "FAILED_DISCOVERY"⟩
  | .ok none => ⟨c.name, none, "FAILED_DISCOVERY"⟩
  | .exn m => ⟨c.name, none, "ERROR_DISCOVERY: " ++ m⟩

/-- `run_orchestration` over the retrieved companies, with discovery
behaviour given by the oracle `f`. -/
def runOrchestration (companies : List CompanyEntry) (f : CompanyEntry → DOutcome) :
    List PageResult :=
  companies.foldl
    (fun acc c => if c.name == "" then acc else acc ++ [orchResult c (f c)]) []

/-! ## Auxiliary predicates and concrete fixtures used by the theorems -/

/-- Truthiness of the candidate fields checked first by
`scrape_company_jobs` (`if not title or not href: continue`). -/
def validCand (c : RawCandidate) : Bool := !(c.title == "" || c.href == "")

/-- A candidate is rejected by one of the pure (state-independent)
filters of the static pipeline: allow-list, deny-list, or the structural
test on the resolved href. -/
def pureDropB (u : String) (c : RawCandidate) : Bool :=
  !(titleAllowed (cleanTitle c.title)) || titleDenied (cleanTitle c.title)
    || structDropStatic (resolveHref u c.href)

/-- Invariant of the static pass: every URL in `current_processed_urls`
stems from a processed candidate whose run-wide key was inserted into
the global id set. -/
def CurInv (u : String) (cands : List RawCandidate) (st : SState) : Prop :=
  ∀ h ∈ st.cur, ∃ c, c ∈ cands ∧ validCand c = true
    ∧ resolveHref u c.href = h ∧ jobId u c.title c.href ∈ st.g

/-- Any two candidates of the batch whose hrefs resolve to the same URL
carry the same dedup key (i.e. the same cleaned title). -/
def KeyConsistent (u : String) (cands : List RawCandidate) : Prop :=
  ∀ c c', c ∈ cands → c' ∈ cands →
    resolveHref u c.href = resolveHref u c'.href →
    jobId u c.title c.href = jobId u c'.title c'.href

/-- A search oracle for company "Acme" returning one result link on the
first query and nothing elsewhere. -/
def resultsAcme : String → List String :=
  fun q => if q == "Acme careers" then ["https://acmecareers.com/open"] else []

/-- Two raw candidates sharing one href under different titles. -/
def sharedUrlCands : List RawCandidate :=
  [⟨"Software Engineer", "https://a.com/careers/jobs/1"⟩,
   ⟨"Senior Analyst", "https://a.com/careers/jobs/1"⟩]

/-- A discovery oracle raising an exception for company "B" only. -/
def orchOracle : CompanyEntry → DOutcome :=
  fun c => if c.name == "B" then .exn "boom" else .ok (some "https://a.com/careers")

end JobScraper

namespace JobScraper

/-! ## Lemmas about the discoverer -/

theorem find?_append_split {α : Type} (p : α → Bool) :
    ∀ l₁ l₂ : List α, (l₁ ++ l₂).find? p =
      match l₁.find? p with
      | some a => some a
      | none => l₂.find? p := by
  intro l₁ l₂
  induction l₁ with
  | nil => rfl
  | cons a l ih => cases hpa : p a <;> simp [List.find?, hpa, ih]

theorem searchLinks_eq_find (name : String) :
    ∀ ls : List String, searchLinks name ls = ls.find? (acceptLink name) := by
  intro ls
  induction ls with
  | nil => rfl
  | cons h rest ih =>
    cases hemp : (h == "") <;> cases hval : isValidUrl h <;>
      cases hkw : (pyIn "careers" (strLower h) || pyIn "jobs" (strLower h)
        || pyIn "employment" (strLower h) || pyIn "hiring" (strLower h)) <;>
      cases hlk : isLikelyCompanyDomain name h (strLower h) <;>
      simp [searchLinks, List.find?, acceptLink, bne, hemp, hval, hkw, hlk, ih]

theorem searchAll_eq_find (name : String) (results : String → List String) :
    ∀ qs : List String,
      searchAllQueries name results qs
        = (flattenL (qs.map results)).find? (acceptLink name) := by
  intro qs
  induction qs with
  | nil => rfl
  | cons q qs ih =>
    simp only [searchAllQueries, List.map, flattenL]
    rw [find?_append_split, ← searchLinks_eq_find]
    cases searchLinks name (results q)
    · simpa using ih
    · rfl

/-- C1 (amended): with no valid known URL, discovery accepts a
search-result link as a candidate only if the link is syntactically
valid, its lowercased *full URL* contains one of the tokens `careers`,
`jobs`, `employment`, `hiring` as a substring, and it passes the
domain-likelihood test; it returns the first such candidate in
query-list order then in-page link order (first-match, not
best-match). -/
theorem discovery_first_match_full_url_token :
    (∀ (name : String) (results : String → List String),
      findCareerPageUrl name none results
        = (flattenL ((searchQueries name).map results)).find? (acceptLink name))
    ∧ (∀ name href, acceptLink name href = true →
        isValidUrl href = true
        ∧ (pyIn "careers" (strLower href) || pyIn "jobs" (strLower href)
            || pyIn "employment" (strLower href)
            || pyIn "hiring" (strLower href)) = true
        ∧ isLikelyCompanyDomain name href (strLower href) = true) := by
  constructor
  · intro name results
    simp only [findCareerPageUrl]
    exact searchAll_eq_find name results (searchQueries name)
  · intro name href hacc
    simp only [acceptLink, Bool.and_eq_true] at hacc
    exact ⟨hacc.1.1.2, hacc.1.2, hacc.2⟩

/-- Witness for C1's theorem at company "Acme" and a concrete oracle. -/
theorem discovery_first_match_full_url_token_witness :
    findCareerPageUrl "Acme" none resultsAcme
      = (flattenL ((searchQueries "Acme").map resultsAcme)).find? (acceptLink "Acme")
    ∧ isValidUrl "https://acmecareers.com/open" = true
    ∧ isLikelyCompanyDomain "Acme" "https://acmecareers.com/open"
        (strLower "https://acmecareers.com/open") = true :=
  ⟨discovery_first_match_full_url_token.1 "Acme" resultsAcme,
   (discovery_first_match_full_url_token.2 "Acme" "https://acmecareers.com/open"
      (by decide)).1,
   (discovery_first_match_full_url_token.2 "Acme" "https://acmecareers.com/open"
      (by decide)).2.2⟩

/-- Counterexample to C1 as stated: the source tests the career tokens
against the lowercased *full URL*, not the path or query string; the
link `https://acmecareers.com/open` (token only inside the domain) is
accepted for company "Acme". -/
theorem discovery_token_outside_path_query_accepted :
    findCareerPageUrl "Acme" none resultsAcme = some "https://acmecareers.com/open"
    ∧ specPathOrQueryHasToken "https://acmecareers.com/open" = false := by decide

end JobScraper

namespace JobScraper

/-! ## Structural plausibility test (C2) -/

/-- C2 (amended): the structural plausibility test of the static
pipeline is applied to the *resolved* href: whenever the resolved href,
stripped of outer slashes and split on '/', has fewer than 4 segments
and contains none of the tokens `job`, `career`, `opening`, `position`,
`viewjob`, the candidate is dropped (the pass appends nothing for it);
a site-relative link such as `/careers/jobs/123/senior-analyst` resolves
against the page URL before the test and is kept. -/
theorem structural_test_drops_resolved_short_links :
    (∀ (u : String) (st : SState) (c : RawCandidate),
      structDropStatic (resolveHref u c.href) = true →
      (stepStatic u st c).out = st.out)
    ∧ (staticRun "https://acme.com"
        [⟨"Senior Analyst", "/careers/jobs/123/senior-analyst"⟩] []).out
      = [⟨"Senior Analyst", "https://acme.com/careers/jobs/123/senior-analyst"⟩] := by
  constructor
  · intro u st c hdrop
    unfold stepStatic
    split_ifs <;> simp_all
  · decide

/-- Witness for C2's theorem: a bare host URL with no job-indicating
token satisfies the drop condition and produces no listing. -/
theorem structural_test_drops_resolved_short_links_witness :
    (stepStatic "https://acme.com" ⟨[], [], []⟩
      ⟨"Software Engineer", "https://acme.com"⟩).out = ([] : List Listing) :=
  structural_test_drops_resolved_short_links.1 "https://acme.com" ⟨[], [], []⟩
    ⟨"Software Engineer", "https://acme.com"⟩ (by decide)

/-- Counterexample to C2 as stated: the raw link `/x/y` has fewer than 4
slash-delimited segments and no job-indicating token, yet the candidate
is *kept*, because the test runs on the resolved href
`https://acme.com/x/y`, which has 5 segments. -/
theorem structural_test_keeps_relative_xy :
    segCount "/x/y" < 4
    ∧ (["job", "career", "opening", "position"].any (fun k => pyIn k "/x/y")) = false
    ∧ (staticRun "https://acme.com" [⟨"Software Engineer", "/x/y"⟩] []).out
        = [⟨"Software Engineer", "https://acme.com/x/y"⟩]
    ∧ segCount (resolveHref "https://acme.com" "/x/y") = 5 := by decide

/-! ## Pagination controller (C4) -/

theorem googlePaginate_le (env : Nat → GooglePage) :
    ∀ fuel count : Nat, googlePaginate env fuel count ≤ count + fuel := by
  intro fuel
  induction fuel with
  | zero => intro count; simp [googlePaginate]
  | succ fuel ih =>
    intro count
    simp only [googlePaginate]
    split_ifs
    · omega
    · have := ih (count + 1); omega
    · omega

theorem googlePaginate_full (env : Nat → GooglePage)
    (hnext : ∀ n, (env n).nextEnabled = true)
    (hitems : ∀ n, (env n).jobItems ≠ []) :
    ∀ fuel count : Nat, googlePaginate env fuel count = count + fuel := by
  intro fuel
  induction fuel with
  | zero => intro count; simp [googlePaginate]
  | succ fuel ih =>
    intro count
    have hemp : (env (count + 1)).jobItems.isEmpty = false := by
      simpa [List.isEmpty_iff] using hitems (count + 1)
    simp only [googlePaginate, hemp, hnext (count + 1), Bool.false_and,
      Bool.false_eq_true, if_false, if_true]
    rw [ih (count + 1)]
    omega

/-- C4 (amended): the Google pagination loop never visits more than the
45-page safety cap, and when the "next" control is always present and
enabled *and every page yields at least one job item*, it visits exactly
45 pages and then terminates. -/
theorem pagination_cap_and_full_run (env : Nat → GooglePage) :
    googlePageCount env ≤ 45
    ∧ ((∀ n, (env n).nextEnabled = true) → (∀ n, (env n).jobItems ≠ []) →
        googlePageCount env = 45) := by
  constructor
  · simpa [googlePageCount] using googlePaginate_le env 45 0
  · intro h1 h2
    simpa [googlePageCount] using googlePaginate_full env h1 h2 45 0

/-- Witness for C4's theorem on an environment with one item per page
and an always-enabled next control. -/
theorem pagination_cap_and_full_run_witness :
    googlePageCount fullPagesEnv = 45 :=
  (pagination_cap_and_full_run fullPagesEnv).2 (fun _ => rfl)
    (fun _ => by simp [fullPagesEnv])

/-- Counterexample to C4 as stated: with the next control always present
and enabled but every page empty, the controller stops after visiting
page 2 (the zero-item break), not after 45 pages. -/
theorem pagination_stops_early_on_empty_pages :
    (emptyPagesEnv 1).nextEnabled = true
    ∧ (emptyPagesEnv 2).nextEnabled = true
    ∧ googlePageCount emptyPagesEnv = 2
    ∧ googlePageCount emptyPagesEnv ≠ 45 := by decide

/-! ## Direct-URL short circuit (C6) -/

/-- C6 (confirmed): a provided known URL that is syntactically valid
(scheme and authority present) is returned immediately, for every search
oracle — no search query can influence the result. -/
theorem direct_url_short_circuits_search
    (name u : String) (hvalid : isValidUrl u = true) :
    ∀ results : String → List String,
      findCareerPageUrl name (some u) results = some u := by
  intro results
  have hne : (u != "") = true := by
    rcases eq_or_ne u "" with rfl | hne
    · exact absurd hvalid (by decide)
    · simpa [bne] using hne
  simp [findCareerPageUrl, hne, hvalid]

/-- Witness for C6's theorem: two different oracles, same result. -/
theorem direct_url_short_circuits_search_witness :
    findCareerPageUrl "Acme" (some "https://careers.acme.com/") (fun _ => [])
      = some "https://careers.acme.com/"
    ∧ findCareerPageUrl "Acme" (some "https://careers.acme.com/")
        (fun _ => ["https://unrelated.com/jobs"])
      = some "https://careers.acme.com/" :=
  ⟨direct_url_short_circuits_search "Acme" "https://careers.acme.com/" (by decide) _,
   direct_url_short_circuits_search "Acme" "https://careers.acme.com/" (by decide) _⟩

/-! ## Title cleanup (C7) -/

/-- C7 (amended): title cleanup drops the first of the first two
whitespace-delimited tokens only when those two tokens are identical
case-insensitively, trims leading/trailing ':', '-' and spaces, and
replaces doubled internal spaces; `"EngineerEngineer Software Engineer"`
is a single leading token and is left unchanged, while
`"Engineer Engineer Software Engineer"` loses its duplicated first token
and `"- Senior Analyst -"` is trimmed to `"Senior Analyst"`. -/
theorem title_cleanup_amended_examples :
    cleanTitle "EngineerEngineer Software Engineer"
      = "EngineerEngineer Software Engineer"
    ∧ cleanTitle "Engineer Engineer Software Engineer"
      = "Engineer Software Engineer"
    ∧ cleanTitle "- Senior Analyst -" = "Senior Analyst"
    ∧ cleanTitle "Senior  Analyst" = "Senior Analyst" := by decide

/-- Counterexample to C7 as stated: `"EngineerEngineer Software
Engineer"` does not normalize to `"Software Engineer"`; the duplicate
rule compares whitespace-delimited tokens and `EngineerEngineer` is one
token. -/
theorem title_cleanup_single_token_unchanged :
    cleanTitle "EngineerEngineer Software Engineer" ≠ "Software Engineer" := by decide

/-! ## Dedup key collision (C10) -/

/-- C10 (confirmed): the run-wide duplicate key is `title ++ "-" ++
url`, so two candidates with distinct titles and distinct resolved URLs
can share one key; processed in one run, only the first becomes a
listing. -/
theorem dedup_key_collision :
    jobId "https://base.com" "Senior-Engineer" "https://a.com/jobs/1"
      = jobId "https://base.com" "Senior" "Engineer-https://a.com/jobs/1"
    ∧ ("Senior-Engineer" : String) ≠ "Senior"
    ∧ resolveHref "https://base.com" "https://a.com/jobs/1"
      ≠ resolveHref "https://base.com" "Engineer-https://a.com/jobs/1"
    ∧ (staticRun "https://base.com"
        [⟨"Senior-Engineer", "https://a.com/jobs/1"⟩,
         ⟨"Senior", "Engineer-https://a.com/jobs/1"⟩] []).out
      = [⟨"Senior-Engineer", "https://a.com/jobs/1"⟩] := by decide

end JobScraper

namespace JobScraper

/-! ## Orchestration (C5) -/

theorem orchFold_acc (f : CompanyEntry → DOutcome) :
    ∀ (xs : List CompanyEntry) (acc : List PageResult),
      xs.foldl (fun a c => if c.name == "" then a else a ++ [orchResult c (f c)]) acc
        = acc ++ xs.foldl
            (fun a c => if c.name == "" then a else a ++ [orchResult c (f c)]) [] := by
  intro xs
  induction xs with
  | nil => intro acc; simp
  | cons c xs ih =>
    intro acc
    rw [List.foldl_cons, List.foldl_cons]
    by_cases h : (c.name == "") = true
    · rw [if_pos h, if_pos h, ih]
    · rw [if_neg h, if_neg h, ih, ih ([] ++ [orchResult c (f c)])]
      simp

theorem runOrch_append (f : CompanyEntry → DOutcome) (xs ys : List CompanyEntry) :
    runOrchestration (xs ++ ys) f
      = runOrchestration xs f ++ runOrchestration ys f := by
  simp only [runOrchestration, List.foldl_append]
  rw [orchFold_acc]

theorem runOrch_singleton (f : CompanyEntry → DOutcome) (c : CompanyEntry)
    (hname : c.name ≠ "") :
    runOrchestration [c] f = [orchResult c (f c)] := by
  simp [runOrchestration, hname]

/-- C5 (confirmed): per-company failures are isolated.  If discovery for
one company raises, the orchestration records a result with a null URL
and status `ERROR_DISCOVERY: <msg>` for that company and still processes
every remaining company; a company whose discovery returns no (truthy)
URL is recorded as `FAILED_DISCOVERY`, and one with a URL as
`SUCCESS`. -/
theorem orchestration_isolates_failures
    (pre post : List CompanyEntry) (c : CompanyEntry)
    (f : CompanyEntry → DOutcome) (hname : c.name ≠ "") :
    (∀ m, f c = .exn m →
      runOrchestration (pre ++ c :: post) f
        = runOrchestration pre f
            ++ ⟨c.name, none, "ERROR_DISCOVERY: " ++ m⟩ :: runOrchestration post f)
    ∧ (f c = .ok none →
      runOrchestration (pre ++ c :: post) f
        = runOrchestration pre f
            ++ ⟨c.name, none, "FAILED_DISCOVERY"⟩ :: runOrchestration post f)
    ∧ (∀ u, u ≠ "" → f c = .ok (some u) →
      runOrchestration (pre ++ c :: post) f
        = runOrchestration pre f
            ++ ⟨c.name, some u, "SUCCESS"⟩ :: runOrchestration post f) := by
  have hsplit : runOrchestration (pre ++ c :: post) f
      = runOrchestration pre f ++ runOrchestration [c] f ++ runOrchestration post f := by
    rw [show pre ++ c :: post = pre ++ [c] ++ post by simp, runOrch_append, runOrch_append]
  refine ⟨?_, ?_, ?_⟩
  · intro m hm
    rw [hsplit, runOrch_singleton f c hname, hm]
    simp [orchResult]
  · intro hm
    rw [hsplit, runOrch_singleton f c hname, hm]
    simp [orchResult]
  · intro u hu hm
    have hu' : (u != "") = true := by simpa [bne] using hu
    rw [hsplit, runOrch_singleton f c hname, hm]
    simp [orchResult, hu']

/-- Witness for C5's theorem: company "B" raises, "A" and "C" are still
processed normally. -/
theorem orchestration_isolates_failures_witness :
    runOrchestration ([⟨"A", none⟩] ++ (⟨"B", none⟩ : CompanyEntry) :: [⟨"C", none⟩])
        orchOracle
      = runOrchestration [⟨"A", none⟩] orchOracle
          ++ ⟨"B", none, "ERROR_DISCOVERY: " ++ "boom"⟩
            :: runOrchestration [⟨"C", none⟩] orchOracle :=
  (orchestration_isolates_failures [⟨"A", none⟩] [⟨"C", none⟩] ⟨"B", none⟩
    orchOracle (by decide)).1 "boom" (by decide)

end JobScraper

namespace JobScraper

/-! ## Generic dynamic pipeline: URL provenance (C8) -/

theorem stepPw_out_sub (u : String) (st : PwState) (c : PwCandidate)
    (l : PwListing) (hl : l ∈ (stepPw u st c).out) :
    l ∈ st.out ∨ l = ⟨cleanTitle c.title, pwResolve u c.link⟩ := by
  unfold stepPw at hl
  split_ifs at hl <;>
    first
      | exact Or.inl hl
      | exact (List.mem_append.mp hl).elim Or.inl
          (fun h => Or.inr (List.mem_singleton.mp h))

theorem pwFold_out (u : String) :
    ∀ (cs : List PwCandidate) (st : PwState) (l : PwListing),
      l ∈ (cs.foldl (stepPw u) st).out →
      l ∈ st.out ∨ ∃ c, c ∈ cs ∧ l = ⟨cleanTitle c.title, pwResolve u c.link⟩ := by
  intro cs
  induction cs with
  | nil => intro st l hl; exact Or.inl hl
  | cons c cs ih =>
    intro st l hl
    rw [List.foldl_cons] at hl
    rcases ih (stepPw u st c) l hl with h | ⟨c', hc', he⟩
    · rcases stepPw_out_sub u st c l h with h' | h'
      · exact Or.inl h'
      · exact Or.inr ⟨c, List.mem_cons_self _ _, h'⟩
    · exact Or.inr ⟨c', List.mem_cons_of_mem _ hc', he⟩

/-- C8 (amended): every listing produced by the generic dynamic
extraction pipeline carries as url either nothing (title-only
candidates), or an empty string (an empty href kept verbatim), or the
candidate's href verbatim when it already starts with `http`, or the
href resolved (joined) against the page URL. -/
theorem pw_listing_url_provenance
    (u : String) (g0 : List String) (cands : List PwCandidate)
    (l : PwListing) (hl : l ∈ (pwRun u cands g0).out) :
    l.url = none ∨ l.url = some ""
      ∨ (∃ s, l.url = some s ∧ pyStartsWith s "http" = true)
      ∨ (∃ href, l.url = some (urljoin u href)) := by
  rcases pwFold_out u cands ⟨g0, [], []⟩ l hl with h | ⟨c, _, rfl⟩
  · exact absurd h (List.not_mem_nil l)
  · cases hlink : c.link with
    | none => exact Or.inl (by simp [pwResolve, hlink])
    | some s =>
      by_cases hs : (s != "") = true
      · by_cases hh : pyStartsWith s "http" = true
        · refine Or.inr (Or.inr (Or.inl ⟨s, ?_, hh⟩))
          simp [pwResolve, hlink, hs, hh]
        · refine Or.inr (Or.inr (Or.inr ⟨s, ?_⟩))
          simp only [pwResolve, hlink]
          rw [if_pos]
          simp [hs, hh]
      · have hse : s = "" := by simpa [bne] using hs
        refine Or.inr (Or.inl ?_)
        simp [pwResolve, hlink, hse]

/-- Witness for C8's theorem: a relative href is resolved against the
page URL. -/
theorem pw_listing_url_provenance_witness :
    (⟨"Software Engineer", some "https://acme.com/careers/jobs/1"⟩ : PwListing).url = none
    ∨ (⟨"Software Engineer", some "https://acme.com/careers/jobs/1"⟩ : PwListing).url = some ""
    ∨ (∃ s, (⟨"Software Engineer", some "https://acme.com/careers/jobs/1"⟩ : PwListing).url
          = some s ∧ pyStartsWith s "http" = true)
    ∨ (∃ href, (⟨"Software Engineer", some "https://acme.com/careers/jobs/1"⟩ : PwListing).url
          = some (urljoin "https://acme.com" href)) :=
  pw_listing_url_provenance "https://acme.com" []
    [⟨"Software Engineer", some "/careers/jobs/1"⟩]
    ⟨"Software Engineer", some "https://acme.com/careers/jobs/1"⟩ (by decide)

/-- Counterexample to C8 as stated: a title-only candidate (at least
three title tokens, no link) survives the pipeline and is returned with
*no* URL, so not every returned listing has an absolute URL. -/
theorem pw_listing_without_url :
    (pwRun "https://jobs.netflix.com" [⟨"Senior Software Engineer", none⟩] []).out
      = [⟨"Senior Software Engineer", none⟩]
    ∧ (⟨"Senior Software Engineer", none⟩ : PwListing).url = none := by decide

/-! ## ServiceNow path: no content filters (C9) -/

theorem stepSN_out_mono (u : String) (st : SState) (c : SNCandidate)
    (l : Listing) (hl : l ∈ st.out) : l ∈ (stepSN u st c).out := by
  unfold stepSN
  split_ifs <;> first | exact hl | exact List.mem_append_left _ hl

theorem foldSN_out_mono (u : String) :
    ∀ (cs : List SNCandidate) (st : SState) (l : Listing),
      l ∈ st.out → l ∈ (cs.foldl (stepSN u) st).out := by
  intro cs
  induction cs with
  | nil => intro st l hl; exact hl
  | cons c cs ih => intro st l hl; exact ih _ _ (stepSN_out_mono u st c l hl)

/-- C9 (confirmed): on the ServiceNow-specific extraction path every
candidate with a nonempty title and link that passes the duplicate-key
test becomes a returned listing — no allow-list, deny-list or
structural condition on the title or link is required. -/
theorem servicenow_no_filters
    (u : String) (g0 : List String) (pre post : List SNCandidate) (c : SNCandidate)
    (ht : c.title ≠ "") (hlk : c.link ≠ "")
    (hkey : pwKey c.title (pwResolve u (some c.link)) ∉ (snRun u pre g0).g)
    (hcur : ¬(linkTruthy (pwResolve u (some c.link)) = true
        ∧ ((pwResolve u (some c.link)).getD "") ∈ (snRun u pre g0).cur)) :
    (⟨c.title, (pwResolve u (some c.link)).getD ""⟩ : Listing)
      ∈ (snRun u (pre ++ c :: post) g0).out := by
  have hsplit : snRun u (pre ++ c :: post) g0
      = post.foldl (stepSN u) (stepSN u (snRun u pre g0) c) := by
    simp [snRun, List.foldl_append]
  rw [hsplit]
  apply foldSN_out_mono
  have hval : (c.title == "" || c.link == "") = true → False := by
    intro hcontra
    rcases Bool.or_eq_true_iff.mp hcontra with h | h
    · exact ht (eq_of_beq h)
    · exact hlk (eq_of_beq h)
  have hded : ¬(pwKey c.title (pwResolve u (some c.link)) ∈ (snRun u pre g0).g
      ∨ (linkTruthy (pwResolve u (some c.link)) = true
          ∧ ((pwResolve u (some c.link)).getD "") ∈ (snRun u pre g0).cur)) := by
    rintro (h | h)
    · exact hkey h
    · exact hcur h
  unfold stepSN
  rw [if_neg hval, if_neg hded]
  exact List.mem_append_right _ (List.mem_singleton.mpr rfl)

/-- Witness for C9's theorem: a candidate whose title fails the
allow-list, matches the deny-list, and whose link would fail the
structural test, still becomes a listing on this path. -/
theorem servicenow_no_filters_witness :
    (⟨"Cookie", "https://sn.com"⟩ : Listing)
      ∈ (snRun "https://careers.servicenow.com"
          ([] ++ (⟨"Cookie", "https://sn.com"⟩ : SNCandidate) :: []) []).out := by
  have h := servicenow_no_filters "https://careers.servicenow.com" [] [] []
    ⟨"Cookie", "https://sn.com"⟩ (by decide) (by decide) (by decide) (by decide)
  simpa using h

end JobScraper

namespace JobScraper

/-! ## Static pipeline: second-pass behaviour (C3) -/

theorem stepStatic_g_mono (u : String) (st : SState) (c : RawCandidate)
    (k : String) (hk : k ∈ st.g) : k ∈ (stepStatic u st c).g := by
  unfold stepStatic
  split_ifs <;> first | exact hk | exact List.mem_cons_of_mem _ hk

theorem foldStatic_g_mono (u : String) :
    ∀ (cs : List RawCandidate) (st : SState) (k : String),
      k ∈ st.g → k ∈ (cs.foldl (stepStatic u) st).g := by
  intro cs
  induction cs with
  | nil => intro st k hk; exact hk
  | cons c cs ih => intro st k hk; exact ih _ _ (stepStatic_g_mono u st c k hk)

theorem stepStatic_key_or_dedup_or_drop (u : String) (st : SState)
    (c : RawCandidate) (hv : validCand c = true) :
    jobId u c.title c.href ∈ (stepStatic u st c).g
      ∨ (jobId u c.title c.href ∈ st.g ∨ resolveHref u c.href ∈ st.cur)
      ∨ pureDropB u c = true := by
  unfold stepStatic
  split_ifs with h1 h2 h3 h4 h5
  · exfalso
    simp only [validCand, h1, Bool.not_true] at hv
    exact Bool.false_ne_true hv
  · exact Or.inr (Or.inl h2)
  · exact Or.inr (Or.inr (by simp [pureDropB, h3]))
  · exact Or.inr (Or.inr (by simp [pureDropB, h4]))
  · exact Or.inr (Or.inr (by simp [pureDropB, h5]))
  · exact Or.inl (List.mem_cons_self _ _)

theorem stepStatic_cur_inv (u : String) (cands : List RawCandidate)
    (st : SState) (c : RawCandidate) (hc : c ∈ cands) (hinv : CurInv u cands st) :
    CurInv u cands (stepStatic u st c) := by
  unfold stepStatic
  split_ifs with h1 h2 h3 h4 h5
  · exact hinv
  · exact hinv
  · exact hinv
  · exact hinv
  · exact hinv
  · intro h hh
    rcases List.mem_cons.mp hh with rfl | hmem
    · refine ⟨c, hc, ?_, rfl, List.mem_cons_self _ _⟩
      simp only [validCand]
      cases hb : (c.title == "" || c.href == "")
      · rfl
      · exact absurd hb h1
    · obtain ⟨c', hc', hv', hr', hg'⟩ := hinv h hmem
      exact ⟨c', hc', hv', hr', List.mem_cons_of_mem _ hg'⟩

theorem firstPass_class (u : String) (cands : List RawCandidate)
    (hkc : KeyConsistent u cands) :
    ∀ (cs : List RawCandidate) (st : SState),
      (∀ c, c ∈ cs → c ∈ cands) → CurInv u cands st →
      ∀ c, c ∈ cs → validCand c = true →
        jobId u c.title c.href ∈ (cs.foldl (stepStatic u) st).g
          ∨ pureDropB u c = true := by
  intro cs
  induction cs with
  | nil => intro st _ _ c hc; exact absurd hc (List.not_mem_nil c)
  | cons c0 cs ih =>
    intro st hsub hinv c hc hv
    rw [List.foldl_cons]
    rcases List.mem_cons.mp hc with rfl | hmem
    · rcases stepStatic_key_or_dedup_or_drop u st c hv with hkey | hded | hdrop
      · exact Or.inl (foldStatic_g_mono u cs _ _ hkey)
      · rcases hded with hg | hcur
        · exact Or.inl (foldStatic_g_mono u cs _ _ (stepStatic_g_mono u st c _ hg))
        · obtain ⟨c', hc', _, hr', hg'⟩ := hinv _ hcur
          have hkeq : jobId u c.title c.href = jobId u c'.title c'.href :=
            hkc c c' (hsub c (List.mem_cons_self _ _)) hc' hr'.symm
          rw [hkeq]
          exact Or.inl (foldStatic_g_mono u cs _ _ (stepStatic_g_mono u st c _ hg'))
      · exact Or.inr hdrop
    · exact ih (stepStatic u st c0)
        (fun x hx => hsub x (List.mem_cons_of_mem _ hx))
        (stepStatic_cur_inv u cands st c0 (hsub c0 (List.mem_cons_self _ _)) hinv)
        c hmem hv

theorem secondPass_fixed (u : String) :
    ∀ (cs : List RawCandidate) (st : SState),
      st.cur = [] →
      (∀ c, c ∈ cs → validCand c = true →
        jobId u c.title c.href ∈ st.g ∨ pureDropB u c = true) →
      cs.foldl (stepStatic u) st = st := by
  intro cs
  induction cs with
  | nil => intro st _ _; rfl
  | cons c cs ih =>
    intro st hcur hcls
    have hstep : stepStatic u st c = st := by
      by_cases h1 : (c.title == "" || c.href == "") = true
      · unfold stepStatic; rw [if_pos h1]
      · have hv : validCand c = true := by
          simp only [validCand]
          cases hb : (c.title == "" || c.href == "")
          · rfl
          · exact absurd hb h1
        rcases hcls c (List.mem_cons_self _ _) hv with hg | hdrop
        · unfold stepStatic
          rw [if_neg h1, if_pos (Or.inl hg)]
        · by_cases h2 : (jobId u c.title c.href ∈ st.g ∨ resolveHref u c.href ∈ st.cur)
          · unfold stepStatic; rw [if_neg h1, if_pos h2]
          · unfold stepStatic
            rw [if_neg h1, if_neg h2]
            by_cases h3 : (!titleAllowed (cleanTitle c.title)) = true
            · rw [if_pos h3]
            · rw [if_neg h3]
              by_cases h4 : titleDenied (cleanTitle c.title) = true
              · rw [if_pos h4]
              · rw [if_neg h4]
                have h5 : structDropStatic (resolveHref u c.href) = true := by
                  cases hsd : structDropStatic (resolveHref u c.href) with
                  | true => rfl
                  | false =>
                    exfalso
                    have h3' : titleAllowed (cleanTitle c.title) = true := by
                      cases hta : titleAllowed (cleanTitle c.title) with
                      | true => rfl
                      | false => exact absurd (by rw [hta]; rfl) h3
                    have h4' : titleDenied (cleanTitle c.title) = false := by
                      cases htd : titleDenied (cleanTitle c.title) with
                      | false => rfl
                      | true => exact absurd htd h4
                    have hfd : pureDropB u c = false := by
                      unfold pureDropB
                      rw [h3', h4', hsd]
                      rfl
                    rw [hfd] at hdrop
                    exact Bool.false_ne_true hdrop
                rw [if_pos h5]
    rw [List.foldl_cons, hstep]
    exact ih st hcur (fun x hx => hcls x (List.mem_cons_of_mem _ hx))

/-- C3 (amended): re-running the static normalization/filter/dedup pass
on an identical candidate list against the dedup index produced by the
first pass yields zero listings, *provided* any two candidates whose
hrefs resolve to the same URL carry the same dedup key; without this
proviso a candidate dropped on the first pass only by the within-page
URL check can survive the second pass. -/
theorem second_pass_empty_of_key_consistent
    (u : String) (cands : List RawCandidate) (g0 : List String)
    (hkc : KeyConsistent u cands) :
    (staticRun u cands (staticRun u cands g0).g).out = [] := by
  have hclass := firstPass_class u cands hkc cands ⟨g0, [], []⟩
    (fun _ h => h) (fun h hh => absurd hh (List.not_mem_nil h))
  have hfix := secondPass_fixed u cands ⟨(staticRun u cands g0).g, [], []⟩ rfl
    (fun c hc hv => hclass c hc hv)
  simp only [staticRun] at hfix ⊢
  rw [hfix]

/-- Witness for C3's theorem on a single-candidate batch. -/
theorem second_pass_empty_of_key_consistent_witness :
    (staticRun "https://acme.com"
        [⟨"Software Engineer", "https://a.com/careers/jobs/1"⟩]
        (staticRun "https://acme.com"
          [⟨"Software Engineer", "https://a.com/careers/jobs/1"⟩] []).g).out = [] :=
  second_pass_empty_of_key_consistent "https://acme.com"
    [⟨"Software Engineer", "https://a.com/careers/jobs/1"⟩] []
    (fun c c' hc hc' _ => by
      rw [List.mem_singleton] at hc hc'
      rw [hc, hc'])

/-- Counterexample to C3 as stated: two candidates share one href under
different titles; the second is dropped on the first pass only by the
per-page URL check (its key is never recorded), so on the second pass —
where the first candidate is skipped by the run-wide index and therefore
never re-registers the URL — it survives, and the second pass is not
empty. -/
theorem second_pass_not_empty_on_shared_url :
    (staticRun "https://acme.com" sharedUrlCands [] ).out
      = [⟨"Software Engineer", "https://a.com/careers/jobs/1"⟩]
    ∧ (staticRun "https://acme.com" sharedUrlCands
        (staticRun "https://acme.com" sharedUrlCands []).g).out
      = [⟨"Senior Analyst", "https://a.com/careers/jobs/1"⟩]
    ∧ (staticRun "https://acme.com" sharedUrlCands
        (staticRun "https://acme.com" sharedUrlCands []).g).out ≠ [] := by decide

end JobScraper
